import Mathlib

/-!
Shallow embedding of the recipe-scaling logic of the baking-box application
(the `App` component and its `DisplayIngredientSection` helper).

Numeric values are modelled as exact rationals (`ℚ`); mold geometry, which
involves `π`, is modelled over the reals (`ℝ`).  Ingredient amounts are either
numbers or raw strings, exactly as in the source, where string amounts are fed
through `parseFloat`.
-/

namespace BakingBox

/-- Models JS `parseFloat` on the simple decimal literals this application
stores (optional sign, digits, optional fractional part).  Returns `none`
when no number can be parsed from the start of the string (JS `NaN`), e.g.
for the sentinel strings "適量" and "少許". -/
def takeDigits : List Char → List ℕ × List Char
  | [] => ([], [])
  | c :: cs =>
      if c.isDigit then
        let (ds, rest) := takeDigits cs
        ((c.toNat - 48) :: ds, rest)
      else ([], c :: cs)

def digitsToNat (ds : List ℕ) : ℕ := ds.foldl (fun a d => 10 * a + d) 0

def jsParseFloat (s : String) : Option ℚ :=
  let go : List Char → Option ℚ := fun cs =>
    let (ip, rest) := takeDigits cs
    match rest with
    | '.' :: t =>
        let (fp, _) := takeDigits t
        if ip = [] ∧ fp = [] then none
        else some ((digitsToNat ip : ℚ) + (digitsToNat fp : ℚ) / 10 ^ fp.length)
    | _ => if ip = [] then none else some (digitsToNat ip)
  match s.toList with
  | '-' :: t => (go t).map (fun q => -q)
  | '+' :: t => go t
  | t => go t

/-- An ingredient amount as stored by the application: a number or a raw
string (the form stores user input as text; string amounts include numeric
text and sentinels such as "適量"). -/
inductive Amount
  | num (q : ℚ)
  | str (s : String)
deriving DecidableEq

/-- The numeric value the component extracts from an amount:
`typeof amount === 'number' ? amount : parseFloat(amount)`, with `NaN`
collapsed to `0` (both the `|| 0` form and the `isNaN(parsed) ? 0 : parsed`
form in the source). -/
def numericAmt : Amount → ℚ
  | .num q => q
  | .str s => (jsParseFloat s).getD 0

structure Ingredient where
  name : String
  amount : Amount
  unit : String
  isFlour : Bool
deriving DecidableEq

/-- JS `Number.prototype.toFixed(1)` on an exact rational: the sign is taken
from the argument, then the magnitude is rounded to tenths, ties picking the
larger integer of tenths. -/
def toFixed1Core (q : ℚ) : String :=
  let n := (⌊q * 10 + 1 / 2⌋).toNat
  toString (n / 10) ++ "." ++ toString (n % 10)

def jsToFixed1 (q : ℚ) : String :=
  if q < 0 then "-" ++ toFixed1Core (-q) else toFixed1Core q

/-- `.replace(/\.0$/, '')` -/
def stripDotZero (s : String) : String :=
  if s.endsWith ".0" then s.dropRight 2 else s

/-- The amount cell content: either the computed scaled string or the raw
amount passed through unscaled. -/
inductive ScaledAmount
  | computed (s : String)
  | raw (a : Amount)
deriving DecidableEq

/-- `hasValidAmt ? (numericAmt * scalingFactor).toFixed(1).replace(/\.0$/, '') : ing.amount`
where `hasValidAmt = numericAmt > 0`. -/
def scaledAmount (a : Amount) (factor : ℚ) : ScaledAmount :=
  if 0 < numericAmt a then
    .computed (stripDotZero (jsToFixed1 (numericAmt a * factor)))
  else .raw a

/-- `typeof ing.amount === 'string' && (ing.amount === '適量' || ing.amount === '少許')` -/
def shouldHideUnit : Amount → Bool
  | .num _ => false
  | .str s => s = "適量" || s = "少許"

/-- The percentage badge next to an ingredient: rendered only when the
percentage column is enabled, the section base weight is positive and the
parsed amount is positive; its text is `((numericAmt / base) * 100).toFixed(1)%`. -/
def percentText (showPct : Bool) (baseWeight : ℚ) (a : Amount) : Option String :=
  if showPct ∧ 0 < baseWeight ∧ 0 < numericAmt a then
    some (jsToFixed1 (numericAmt a / baseWeight * 100) ++ "%")
  else none

/-- The `{weight, name}` record returned by the per-section base computation. -/
structure BaseResult where
  weight : ℚ
  name : String
deriving DecidableEq

/-- The `forEach` loop of `localBase`: threads the accumulator
`(flourTotal, maxWeight, maxName)` through the ingredient list.  Each step
adds the parsed amount to `flourTotal` when the ingredient is flour-flagged,
and records the amount and name whenever the amount strictly exceeds the
running maximum. -/
def baseScan : List Ingredient → ℚ × ℚ × String → ℚ × ℚ × String
  | [], acc => acc
  | ing :: rest, (flourTotal, maxWeight, maxName) =>
      let amt := numericAmt ing.amount
      let flourTotal := if ing.isFlour then flourTotal + amt else flourTotal
      baseScan rest
        (if maxWeight < amt then (flourTotal, amt, ing.name)
         else (flourTotal, maxWeight, maxName))

/-- `DisplayIngredientSection`'s independent per-section 100% base:
the flour total labeled "總粉量" when positive; otherwise the running maximum
(`|| 1`) labeled with the recorded name (`|| '主食材'`). -/
def localBase (ingredients : List Ingredient) : BaseResult :=
  let r := baseScan ingredients (0, 0, "")
  if 0 < r.1 then ⟨r.1, "總粉量"⟩
  else ⟨if r.2.1 = 0 then 1 else r.2.1, if r.2.2 = "" then "主食材" else r.2.2⟩

/-- Spec-side description: the sum of the parsed amounts of the ingredients
flagged as flour. -/
def flourSum (ingredients : List Ingredient) : ℚ :=
  (ingredients.map fun ing => if ing.isFlour then numericAmt ing.amount else 0).sum

/-- Spec-side description: the largest parsed amount in the section (at
least `0`). -/
def maxAmt (ingredients : List Ingredient) : ℚ :=
  (ingredients.map fun ing => numericAmt ing.amount).foldl max 0

/-- One rendered ingredient row of `DisplayIngredientSection`. -/
structure LineRender where
  name : String
  amountText : ScaledAmount
  hideUnit : Bool
  percent : Option String
deriving DecidableEq

def renderLine (showPct : Bool) (baseWeight : ℚ) (factor : ℚ) (ing : Ingredient) :
    LineRender :=
  ⟨ing.name, scaledAmount ing.amount factor, shouldHideUnit ing.amount,
    percentText showPct baseWeight ing.amount⟩

/-- The whole rendered section: the base (shown in the header when the
percentage column is on) and one row per ingredient.  `showPct` stands for
`isBaking && showPercentage`. -/
def renderSection (showPct : Bool) (factor : ℚ) (ingredients : List Ingredient) :
    BaseResult × List LineRender :=
  let b := localBase ingredients
  (b, ingredients.map (renderLine showPct b.weight factor))

/-- The `scalingFactor` memo of `App`:
`if (!scalingRecipe || !scalingRecipe.quantity) return 1; return targetQuantity / scalingRecipe.quantity`.
The recipe-missing case is handled by `scalingFactorOfRecipe` below; here the
falsiness guard on the quantity is the `= 0` test. -/
def computeYieldFactor (sourceQuantity targetQuantity : ℚ) : ℚ :=
  if sourceQuantity = 0 then 1 else targetQuantity / sourceQuantity

def scalingFactorOfRecipe (sourceQuantity : Option ℚ) (targetQuantity : ℚ) : ℚ :=
  match sourceQuantity with
  | none => 1
  | some q => computeYieldFactor q targetQuantity

/-- The recipe fields consumed by the scaling view. -/
structure Recipe where
  ingredients : List Ingredient
  liquidStarterIngredients : List Ingredient
  fillingIngredients : List Ingredient
  decorationIngredients : List Ingredient
  customSectionIngredients : List Ingredient
  mainSectionName : String
  liquidStarterName : String
  customSectionName : String
  isBakingRecipe : Bool
  sectionsOrder : List String
  quantity : ℚ
deriving DecidableEq

/-- The arguments `App` passes to `DisplayIngredientSection` for one section
key of `sectionsOrder` in the SCALING view. -/
structure SectionRender where
  ingredients : List Ingredient
  title : String
  showPercentage : Bool
  factor : ℚ
deriving DecidableEq

/-- The SCALING view's dispatch over `sectionsOrder` keys: the main and
liquid-starter sections receive the computed `scalingFactor` and show
percentages; the filling, decoration and custom sections are rendered with
factor `1` and no percentage column; unknown keys render nothing. -/
def renderScalingSection (r : Recipe) (factor : ℚ) (secKey : String) :
    Option SectionRender :=
  if secKey = "ingredients" then
    some ⟨r.ingredients,
      (if r.mainSectionName = "" then "主麵團" else r.mainSectionName), true, factor⟩
  else if secKey = "liquidStarterIngredients" then
    some ⟨r.liquidStarterIngredients,
      (if r.liquidStarterName = "" then "發酵種" else r.liquidStarterName), true, factor⟩
  else if secKey = "fillingIngredients" then
    some ⟨r.fillingIngredients, "內餡 (固定量)", false, 1⟩
  else if secKey = "decorationIngredients" then
    some ⟨r.decorationIngredients, "裝飾 / 表面 (固定量)", false, 1⟩
  else if secKey = "customSectionIngredients" then
    some ⟨r.customSectionIngredients,
      (if r.customSectionName = "" then "其他區塊" else r.customSectionName) ++ " (固定量)",
      false, 1⟩
  else none

/-- The fully rendered section for one key: `DisplayIngredientSection`
returns `null` on an empty ingredient list, otherwise the base and rows. -/
def renderScalingSectionFull (r : Recipe) (factor : ℚ) (secKey : String) :
    Option (BaseResult × List LineRender) :=
  (renderScalingSection r factor secKey).bind fun sr =>
    if sr.ingredients = [] then none
    else some (renderSection (r.isBakingRecipe && sr.showPercentage) sr.factor
      sr.ingredients)

/-! ### Mold geometry (over `ℝ`, since the circular volume involves `π`) -/

inductive MoldType
  | circular
  | rectangular
deriving DecidableEq

/-- The mold state object `{ type, diameter, height, length, width }`. -/
structure Mold where
  type : MoldType
  diameter : ℝ
  height : ℝ
  length : ℝ
  width : ℝ

/-- `getVolume`: `π × (d/2)² × (height || 1)` for a circular mold,
`length × width × (height || 1)` for a rectangular one (`|| 1` is the
falsiness fallback, i.e. a zero height is replaced by `1`). -/
noncomputable def getVolume (m : Mold) : ℝ :=
  match m.type with
  | .circular => Real.pi * (m.diameter / 2) ^ 2 * (if m.height = 0 then 1 else m.height)
  | .rectangular => m.length * m.width * (if m.height = 0 then 1 else m.height)

/-- The base area of a mold (its volume at unit height). -/
noncomputable def moldArea (m : Mold) : ℝ :=
  match m.type with
  | .circular => Real.pi * (m.diameter / 2) ^ 2
  | .rectangular => m.length * m.width

/-- `calculatedMoldFactor`: `1` when either computed volume is `≤ 0`,
otherwise the target/source volume ratio. -/
noncomputable def calculatedMoldFactor (sourceMold targetMold : Mold) : ℝ :=
  let vSource := getVolume sourceMold
  let vTarget := getVolume targetMold
  if vSource ≤ 0 ∨ vTarget ≤ 0 then 1 else vTarget / vSource

/-- Uniform rescaling of every mold dimension by `k` (a unit change). -/
def scaleMold (k : ℝ) (m : Mold) : Mold :=
  ⟨m.type, k * m.diameter, k * m.height, k * m.length, k * m.width⟩

/-! ### Helper lemmas about the section-base fold -/

lemma baseScan_fst (l : List Ingredient) :
    ∀ ft mw mn, (baseScan l (ft, mw, mn)).1 = ft + flourSum l := by
  induction l with
  | nil => intro ft mw mn; simp [baseScan, flourSum]
  | cons ing rest ih =>
      intro ft mw mn
      simp only [baseScan, flourSum, List.map_cons, List.sum_cons]
      by_cases hf : ing.isFlour <;>
        by_cases hm : mw < numericAmt ing.amount <;>
          simp [hf, hm, ih, flourSum] <;> ring

lemma baseScan_max (l : List Ingredient) :
    ∀ ft mw mn, (baseScan l (ft, mw, mn)).2.1 =
      (l.map fun ing => numericAmt ing.amount).foldl max mw := by
  induction l with
  | nil => intro ft mw mn; simp [baseScan]
  | cons ing rest ih =>
      intro ft mw mn
      simp only [baseScan, List.map_cons, List.foldl_cons]
      by_cases hm : mw < numericAmt ing.amount
      · simp only [hm, if_true, if_pos, ih]
        congr 1
        exact (max_eq_right hm.le).symm
      · simp only [hm, if_neg, ite_false, ih]
        congr 1
        exact (max_eq_left (not_lt.mp hm)).symm

lemma baseScan_name (l : List Ingredient) :
    ∀ ft mw mn, ((baseScan l (ft, mw, mn)).2.2 = mn ∧ (baseScan l (ft, mw, mn)).2.1 = mw) ∨
      ∃ ing ∈ l, (baseScan l (ft, mw, mn)).2.2 = ing.name ∧
        (baseScan l (ft, mw, mn)).2.1 = numericAmt ing.amount := by
  induction l with
  | nil => intro ft mw mn; left; simp [baseScan]
  | cons ing rest ih =>
      intro ft mw mn
      simp only [baseScan]
      by_cases hm : mw < numericAmt ing.amount
      · simp only [hm, if_true, if_pos]
        rcases ih (if ing.isFlour then ft + numericAmt ing.amount else ft)
            (numericAmt ing.amount) ing.name with h | ⟨g, hg, h1, h2⟩
        · right; exact ⟨ing, List.mem_cons_self _ _, h.1, h.2⟩
        · right; exact ⟨g, List.mem_cons_of_mem _ hg, h1, h2⟩
      · simp only [hm, if_neg, ite_false]
        rcases ih (if ing.isFlour then ft + numericAmt ing.amount else ft) mw mn with
          h | ⟨g, hg, h1, h2⟩
        · left; exact h
        · right; exact ⟨g, List.mem_cons_of_mem _ hg, h1, h2⟩

lemma le_foldl_max (l : List ℚ) : ∀ a : ℚ, a ≤ l.foldl max a := by
  induction l with
  | nil => intro a; simp
  | cons b rest ih =>
      intro a
      simpa using le_trans (le_max_left a b) (ih (max a b))

lemma mem_le_foldl_max (l : List ℚ) :
    ∀ a b, b ∈ l → b ≤ l.foldl max a := by
  induction l with
  | nil => intro a b h; cases h
  | cons c rest ih =>
      intro a b h
      rcases List.mem_cons.mp h with rfl | h
      · simpa using le_trans (le_max_right a b) (le_foldl_max rest (max a b))
      · simpa using ih (max a c) b h

lemma foldl_max_le (l : List ℚ) :
    ∀ a c, a ≤ c → (∀ b ∈ l, b ≤ c) → l.foldl max a ≤ c := by
  induction l with
  | nil => intro a c ha _; simpa using ha
  | cons b rest ih =>
      intro a c ha hb
      simp only [List.foldl_cons]
      exact ih (max a b) c (max_le ha (hb b (List.mem_cons_self _ _)))
        fun x hx => hb x (List.mem_cons_of_mem _ hx)

lemma maxAmt_nonneg (l : List Ingredient) : 0 ≤ maxAmt l :=
  le_foldl_max _ 0

lemma localBase_weight (l : List Ingredient) :
    (localBase l).weight =
      if 0 < flourSum l then flourSum l
      else if maxAmt l = 0 then 1 else maxAmt l := by
  have h1 := baseScan_fst l 0 0 ""
  have h2 := baseScan_max l 0 0 ""
  simp only [localBase, h1, h2, zero_add, maxAmt]
  by_cases hf : 0 < flourSum l
  · simp [hf]
  · by_cases hm : (l.map fun ing => numericAmt ing.amount).foldl max 0 = 0 <;>
      simp [hf, hm]

lemma localBase_name_of_flour (l : List Ingredient) (h : 0 < flourSum l) :
    localBase l = ⟨flourSum l, "總粉量"⟩ := by
  have h1 := baseScan_fst l 0 0 ""
  simp only [localBase, h1, zero_add]
  simp [h]

/-- Spec-side notion of a non-numeric amount: an amount that is not a number
and that `parseFloat` cannot parse (JS `NaN`), such as the sentinels. -/
def nonNumeric : Amount → Prop
  | .num _ => False
  | .str s => jsParseFloat s = none

end BakingBox

namespace BakingBox

/-! ### Claims -/

/-- C10: for every ingredient list the computed section base weight is
strictly positive (a positive flour total, a positive maximum amount, or the
default `1`), so the base-weight guard before percentage rendering always
passes and the percentage division never divides by zero. -/
theorem claim10_base_weight_pos (ings : List Ingredient) :
    0 < (localBase ings).weight := by
  rw [localBase_weight]
  by_cases hf : 0 < flourSum ings
  · simp [hf]
  · simp only [hf, if_false]
    by_cases hm : maxAmt ings = 0
    · simp [hm]
    · simp only [hm, if_false]
      exact lt_of_le_of_ne (maxAmt_nonneg ings) (Ne.symm hm)

/-- C1 (counterexample): on a section whose single (heaviest) ingredient has
an empty name, the base is labeled with the fallback "主食材", not with that
ingredient's name (the empty string), so the base is not always "labeled with
that ingredient's name" as the claim states. -/
theorem claim1_counterexample :
    localBase [⟨"", Amount.num 120, "g", false⟩] = ⟨120, "主食材"⟩ ∧
    ("主食材" : String) ≠ (Ingredient.mk "" (Amount.num 120) "g" false).name := by
  constructor
  · with_unfolding_all rfl
  · decide

/-- C1 (amended): per-section base: the flour sum labeled "總粉量" when that
sum is positive; otherwise the maximum parsed amount, labeled with the name
of an ingredient attaining it — or with the fallback label "主食材" when that
name is empty — and defaulting to value `1` when the section has no positive
amounts; on `[{flour,500,isFlour},{water,350}]` the base is
`{500, "總粉量"}`, and on the all-non-flour `[{sugar,100},{egg,120}]` it is
`{120, "egg"}`. -/
theorem claim1_amended (ings : List Ingredient) :
    (0 < flourSum ings → localBase ings = ⟨flourSum ings, "總粉量"⟩) ∧
    (flourSum ings ≤ 0 → (∃ ing ∈ ings, 0 < numericAmt ing.amount) →
      (localBase ings).weight = maxAmt ings ∧
      ∃ ing ∈ ings, numericAmt ing.amount = maxAmt ings ∧
        (localBase ings).name = (if ing.name = "" then "主食材" else ing.name)) ∧
    (flourSum ings ≤ 0 → (∀ ing ∈ ings, numericAmt ing.amount ≤ 0) →
      (localBase ings).weight = 1) ∧
    localBase [⟨"flour", Amount.num 500, "g", true⟩, ⟨"water", Amount.num 350, "g", false⟩]
      = ⟨500, "總粉量"⟩ ∧
    localBase [⟨"sugar", Amount.num 100, "g", false⟩, ⟨"egg", Amount.num 120, "g", false⟩]
      = ⟨120, "egg"⟩ := by
  refine ⟨fun h => localBase_name_of_flour ings h, fun hf hex => ?_, fun hf hall => ?_,
    by with_unfolding_all rfl, by with_unfolding_all rfl⟩
  · obtain ⟨ing, hmem, hpos⟩ := hex
    have hmax_pos : 0 < maxAmt ings :=
      lt_of_lt_of_le hpos
        (mem_le_foldl_max _ 0 _ (List.mem_map_of_mem _ hmem))
    have hw : (localBase ings).weight = maxAmt ings := by
      rw [localBase_weight]
      simp [not_lt.mpr hf, hmax_pos.ne']
    refine ⟨hw, ?_⟩
    have h2 := baseScan_max ings 0 0 ""
    rcases baseScan_name ings 0 0 "" with ⟨_, hval⟩ | ⟨g, hg, hname, hval⟩
    · exfalso
      rw [h2] at hval
      exact hmax_pos.ne' (hval ▸ rfl)
    · refine ⟨g, hg, ?_, ?_⟩
      · rw [← hval, h2]; rfl
      · have h1 := baseScan_fst ings 0 0 ""
        simp only [localBase, h1, zero_add, not_lt.mpr hf, if_false, hname]
  · rw [localBase_weight]
    have hmz : maxAmt ings = 0 := by
      refine le_antisymm ?_ (maxAmt_nonneg ings)
      refine foldl_max_le _ 0 0 le_rfl fun b hb => ?_
      obtain ⟨ing, hmem, rfl⟩ := List.mem_map.mp hb
      exact hall ing hmem
    simp [not_lt.mpr hf, hmz]

/-- C1 (witness for the amended theorem): the flour-sum branch at the
concrete two-ingredient flour/water section. -/
theorem claim1_witness :
    0 < flourSum [⟨"flour", Amount.num 500, "g", true⟩,
        ⟨"water", Amount.num 350, "g", false⟩] ∧
    localBase [⟨"flour", Amount.num 500, "g", true⟩,
        ⟨"water", Amount.num 350, "g", false⟩] =
      ⟨flourSum [⟨"flour", Amount.num 500, "g", true⟩,
        ⟨"water", Amount.num 350, "g", false⟩], "總粉量"⟩ :=
  ⟨by with_unfolding_all decide, (claim1_amended _).1 (by with_unfolding_all decide)⟩

/-- C2 (counterexample): the yield-factor guard tests only falsiness of the
source quantity, not `≤ 0`: at source quantity `-2` and target `4` the
factor is `-2`, not the claimed clamp to `1`. -/
theorem claim2_counterexample :
    computeYieldFactor (-2) 4 = -2 ∧ ((-2 : ℚ) ≠ 1) := by
  constructor
  · with_unfolding_all rfl
  · norm_num

/-- C2 (amended): the yield factor is `t / s` whenever the source quantity
`s` is nonzero (negative quantities included — they are not clamped), and is
`1` exactly when the selected recipe is missing or its quantity is `0`;
`computeYieldFactor q q = 1` for `q > 0`. -/
theorem claim2_amended (s t : ℚ) :
    (s ≠ 0 → computeYieldFactor s t = t / s) ∧
    (s = 0 → computeYieldFactor s t = 1) ∧
    scalingFactorOfRecipe none t = 1 ∧
    (0 < s → computeYieldFactor s s = 1) := by
  refine ⟨fun h => ?_, fun h => ?_, rfl, fun h => ?_⟩
  · simp [computeYieldFactor, h]
  · simp [computeYieldFactor, h]
  · simp [computeYieldFactor, h.ne', div_self h.ne']

/-- C2 (witness for the amended theorem). -/
theorem claim2_witness : (3 : ℚ) ≠ 0 ∧ computeYieldFactor 3 6 = 6 / 3 :=
  ⟨by norm_num, (claim2_amended 3 6).1 (by norm_num)⟩

/-- C3 (counterexample): only strictly positive parsed amounts are scaled; a
negative numeric amount (`-5`, reachable since the form stores free-text
amounts) is passed through unchanged instead of being multiplied by the
factor as the claim states. -/
theorem claim3_counterexample :
    scaledAmount (Amount.num (-5)) 2 = ScaledAmount.raw (Amount.num (-5)) ∧
    ScaledAmount.raw (Amount.num (-5)) ≠
      ScaledAmount.computed
        (stripDotZero (jsToFixed1 (numericAmt (Amount.num (-5)) * 2))) := by
  constructor
  · with_unfolding_all rfl
  · intro h
    exact ScaledAmount.noConfusion h

/-- C3 (amended): a strictly positive parsed amount is multiplied by the
factor and formatted with `toFixed(1)` and the trailing `.0` stripped; a
non-positive or unparseable amount (the sentinels included) passes through
unchanged; the unit is suppressed exactly for the strings "適量" and "少許". -/
theorem claim3_amended (a : Amount) (f : ℚ) :
    (0 < numericAmt a →
      scaledAmount a f = .computed (stripDotZero (jsToFixed1 (numericAmt a * f)))) ∧
    (numericAmt a ≤ 0 → scaledAmount a f = .raw a) ∧
    (shouldHideUnit a = true ↔ a = .str "適量" ∨ a = .str "少許") ∧
    scaledAmount (Amount.str "適量") f = .raw (.str "適量") ∧
    scaledAmount (Amount.num 5) (3 / 2) = .computed "7.5" ∧
    scaledAmount (Amount.num 5) 2 = .computed "10" := by
  refine ⟨fun h => ?_, fun h => ?_, ?_, ?_, by with_unfolding_all rfl,
    by with_unfolding_all rfl⟩
  · simp [scaledAmount, h]
  · simp [scaledAmount, not_lt.mpr h]
  · cases a with
    | num q => simp [shouldHideUnit]
    | str s => simp [shouldHideUnit, Amount.str.injEq]
  · have h0 : numericAmt (Amount.str "適量") = 0 := by with_unfolding_all rfl
    simp [scaledAmount, h0]

/-- C3 (witness for the amended theorem). -/
theorem claim3_witness :
    0 < numericAmt (Amount.num 4) ∧
    scaledAmount (Amount.num 4) 2 =
      .computed (stripDotZero (jsToFixed1 (numericAmt (Amount.num 4) * 2))) :=
  ⟨by with_unfolding_all decide, (claim3_amended (Amount.num 4) 2).1
    (by with_unfolding_all decide)⟩

/-- C7 (counterexample): a numeric amount of `0` with a positive base is
skipped (no percentage badge), even though the claim says the percentage is
skipped exactly when the base is `≤ 0` or the amount is non-numeric. -/
theorem claim7_counterexample :
    percentText true 100 (Amount.num 0) = none ∧
    ¬((100 : ℚ) ≤ 0 ∨ nonNumeric (Amount.num 0)) := by
  constructor
  · with_unfolding_all rfl
  · norm_num [nonNumeric]

/-- C7 (amended): the percentage is `amount / base × 100` rendered with
`toFixed(1)`, and it is skipped exactly when the percentage column is off,
the base is `≤ 0`, or the parsed amount is `≤ 0` (non-numeric amounts parse
to `0`, and zero or negative numeric amounts are likewise skipped). -/
theorem claim7_amended (showPct : Bool) (base : ℚ) (a : Amount) :
    (percentText showPct base a = none ↔
      (showPct = false ∨ base ≤ 0 ∨ numericAmt a ≤ 0)) ∧
    (showPct = true → 0 < base → 0 < numericAmt a →
      percentText showPct base a =
        some (jsToFixed1 (numericAmt a / base * 100) ++ "%")) := by
  constructor
  · cases showPct <;>
      by_cases h2 : 0 < base <;> by_cases h3 : 0 < numericAmt a <;>
        simp [percentText, h2, h3, not_lt.mp, le_of_not_lt]
  · intro h1 h2 h3
    simp [percentText, h1, h2, h3]

/-- C7 (witness for the amended theorem). -/
theorem claim7_witness :
    (true = true) ∧ (0 : ℚ) < 500 ∧ 0 < numericAmt (Amount.num 350) ∧
    percentText true 500 (Amount.num 350) =
      some (jsToFixed1 (numericAmt (Amount.num 350) / 500 * 100) ++ "%") :=
  ⟨rfl, by norm_num, by with_unfolding_all decide,
    (claim7_amended true 500 (Amount.num 350)).2 rfl (by norm_num)
      (by with_unfolding_all decide)⟩

/-- C9: the percentage badge of every ingredient and the section base shown
in the header are computed from the unscaled amounts and the unscaled base:
they are identical under any scaling factor to those rendered with factor
`1`; only the displayed amounts change. -/
theorem claim9_percentages_factor_invariant (ings : List Ingredient) (f : ℚ)
    (showPct : Bool) :
    (renderSection showPct f ings).1 = (renderSection showPct 1 ings).1 ∧
    (renderSection showPct f ings).2.map LineRender.percent =
      (renderSection showPct 1 ings).2.map LineRender.percent := by
  constructor
  · rfl
  · simp only [renderSection, List.map_map]
    rfl

/-- C8: in the SCALING view the fixed sections (filling, decoration and the
custom section) are rendered with factor forced to `1` and independently of
the computed scaling factor, so their original amounts are shown unchanged,
while the scalable sections (main and liquid-starter) receive the computed
factor. -/
theorem claim8_fixed_sections (r : Recipe) (f : ℚ) :
    (renderScalingSection r f "fillingIngredients").map SectionRender.factor = some 1 ∧
    (renderScalingSection r f "decorationIngredients").map SectionRender.factor = some 1 ∧
    (renderScalingSection r f "customSectionIngredients").map SectionRender.factor = some 1 ∧
    renderScalingSection r f "fillingIngredients" =
      renderScalingSection r 1 "fillingIngredients" ∧
    renderScalingSection r f "decorationIngredients" =
      renderScalingSection r 1 "decorationIngredients" ∧
    renderScalingSection r f "customSectionIngredients" =
      renderScalingSection r 1 "customSectionIngredients" ∧
    renderScalingSectionFull r f "fillingIngredients" =
      renderScalingSectionFull r 1 "fillingIngredients" ∧
    renderScalingSectionFull r f "decorationIngredients" =
      renderScalingSectionFull r 1 "decorationIngredients" ∧
    renderScalingSectionFull r f "customSectionIngredients" =
      renderScalingSectionFull r 1 "customSectionIngredients" ∧
    (renderScalingSection r f "ingredients").map SectionRender.factor = some f ∧
    (renderScalingSection r f "liquidStarterIngredients").map SectionRender.factor =
      some f := by
  refine ⟨?_, ?_, ?_, ?_, ?_, ?_, ?_, ?_, ?_, ?_, ?_⟩ <;>
    simp [renderScalingSection, renderScalingSectionFull]

/-! ### Mold helper lemmas -/

lemma getVolume_scaleMold (m : Mold) (k : ℝ) (hk : k ≠ 0) :
    getVolume (scaleMold k m) =
      (if m.height = 0 then k ^ 2 else k ^ 3) * getVolume m := by
  by_cases h0 : m.height = 0
  · cases htype : m.type <;>
      simp only [getVolume, scaleMold, htype, h0, mul_zero, if_pos, ite_true] <;>
      ring
  · have hkh : k * m.height ≠ 0 := mul_ne_zero hk h0
    cases htype : m.type <;>
      simp only [getVolume, scaleMold, htype, h0, hkh, if_neg, ite_false] <;>
      ring

lemma getVolume_of_height_zero (m : Mold) (h0 : m.height = 0) :
    getVolume m = moldArea m := by
  cases htype : m.type <;> simp [getVolume, moldArea, htype, h0]

/-- C4: the mold factor is `target volume / source volume` when both volumes
are positive and `1` whenever either volume is `≤ 0` (a silent no-op
fallback); with height `0` on a mold its volume falls back to height `1`
(the base area), so with height `0` on both molds the factor is the area
ratio. -/
theorem claim4_mold_factor (s t : Mold) :
    (0 < getVolume s → 0 < getVolume t →
      calculatedMoldFactor s t = getVolume t / getVolume s) ∧
    (getVolume s ≤ 0 ∨ getVolume t ≤ 0 → calculatedMoldFactor s t = 1) ∧
    (s.height = 0 → getVolume s = moldArea s) ∧
    (s.height = 0 → t.height = 0 → 0 < moldArea s → 0 < moldArea t →
      calculatedMoldFactor s t = moldArea t / moldArea s) := by
  refine ⟨fun hs ht => ?_, fun h => ?_, getVolume_of_height_zero s,
    fun hs0 ht0 has hat => ?_⟩
  · have hcond : ¬(getVolume s ≤ 0 ∨ getVolume t ≤ 0) := by
      push_neg; exact ⟨hs, ht⟩
    simp only [calculatedMoldFactor]
    rw [if_neg hcond]
  · simp only [calculatedMoldFactor]
    rw [if_pos h]
  · have hvs := getVolume_of_height_zero s hs0
    have hvt := getVolume_of_height_zero t ht0
    have hcond : ¬(getVolume s ≤ 0 ∨ getVolume t ≤ 0) := by
      push_neg
      exact ⟨hvs ▸ has, hvt ▸ hat⟩
    simp only [calculatedMoldFactor]
    rw [if_neg hcond, hvs, hvt]

/-- C4 (witness): the 6-inch and 8-inch circular molds both have positive
volume, and the factor is their volume ratio. -/
theorem claim4_witness :
    (0 : ℝ) < getVolume ⟨.circular, 15, 15 / 2, 0, 0⟩ ∧
    (0 : ℝ) < getVolume ⟨.circular, 20, 8, 0, 0⟩ ∧
    calculatedMoldFactor ⟨.circular, 15, 15 / 2, 0, 0⟩ ⟨.circular, 20, 8, 0, 0⟩ =
      getVolume ⟨.circular, 20, 8, 0, 0⟩ / getVolume ⟨.circular, 15, 15 / 2, 0, 0⟩ := by
  have h1 : (0 : ℝ) < getVolume ⟨.circular, 15, 15 / 2, 0, 0⟩ := by
    simp only [getVolume]
    norm_num
    positivity
  have h2 : (0 : ℝ) < getVolume ⟨.circular, 20, 8, 0, 0⟩ := by
    simp only [getVolume]
    norm_num
    positivity
  exact ⟨h1, h2, (claim4_mold_factor _ _).1 h1 h2⟩

/-- C5: the computed mold volume is `π (d/2)² h` for a circular mold and
`l·w·h` for a rectangular one, with the height falling back to `1` when it
is `0` (unset); a zero diameter (or zero length/width) gives volume `0`; the
6-inch circular mold (d=15, h=7.5) has volume within `0.01` of `1325.36`. -/
theorem claim5_mold_volume (m : Mold) :
    (m.type = .circular → m.height ≠ 0 →
      getVolume m = Real.pi * (m.diameter / 2) ^ 2 * m.height) ∧
    (m.type = .circular → m.height = 0 →
      getVolume m = Real.pi * (m.diameter / 2) ^ 2 * 1) ∧
    (m.type = .rectangular → m.height ≠ 0 →
      getVolume m = m.length * m.width * m.height) ∧
    (m.type = .rectangular → m.height = 0 →
      getVolume m = m.length * m.width * 1) ∧
    (m.type = .circular → m.diameter = 0 → getVolume m = 0) ∧
    (m.type = .rectangular → m.length = 0 ∨ m.width = 0 → getVolume m = 0) ∧
    |getVolume ⟨.circular, 15, 15 / 2, 0, 0⟩ - 1325.36| < 1 / 100 := by
  refine ⟨fun ht h0 => ?_, fun ht h0 => ?_, fun ht h0 => ?_, fun ht h0 => ?_,
    fun ht hd => ?_, fun ht hlw => ?_, ?_⟩
  · simp [getVolume, ht, h0]
  · simp [getVolume, ht, h0]
  · simp [getVolume, ht, h0]
  · simp [getVolume, ht, h0]
  · simp [getVolume, ht, hd]
  · rcases hlw with h | h <;> simp [getVolume, ht, h]
  · have hlo := Real.pi_gt_d6
    have hhi := Real.pi_lt_d6
    simp only [getVolume]
    rw [abs_lt]
    norm_num
    constructor <;> nlinarith

/-- C5 (witness): the circular formula at the 6-inch mold. -/
theorem claim5_witness :
    (Mold.mk .circular 15 (15 / 2) 0 0).type = MoldType.circular ∧
    (Mold.mk .circular 15 (15 / 2) 0 0).height ≠ 0 ∧
    getVolume ⟨.circular, 15, 15 / 2, 0, 0⟩ =
      Real.pi * ((Mold.mk .circular 15 (15 / 2) 0 0).diameter / 2) ^ 2 *
        (Mold.mk .circular 15 (15 / 2) 0 0).height :=
  ⟨rfl, by norm_num, (claim5_mold_volume _).1 rfl (by norm_num)⟩

/-- C6 (counterexample): uniform rescaling of both molds by `k = 2` changes
the factor when the source height is `0` (replaced by `1`) but the target
height is not: a source of diameter 2 and height 0 against a target of
diameter 2 and height 2 gives factor 2, but after doubling every dimension
the factor is 4. -/
theorem claim6_counterexample :
    (0 : ℝ) < 2 ∧
    calculatedMoldFactor (scaleMold 2 ⟨.circular, 2, 0, 0, 0⟩)
        (scaleMold 2 ⟨.circular, 2, 2, 0, 0⟩) ≠
      calculatedMoldFactor ⟨.circular, 2, 0, 0, 0⟩ ⟨.circular, 2, 2, 0, 0⟩ := by
  have hpi := Real.pi_pos
  have hv1 : getVolume ⟨.circular, 2, 0, 0, 0⟩ = Real.pi := by
    norm_num [getVolume]
  have hv2 : getVolume ⟨.circular, 2, 2, 0, 0⟩ = 2 * Real.pi := by
    norm_num [getVolume]
    ring
  have hs : scaleMold 2 (⟨.circular, 2, 0, 0, 0⟩ : Mold) = ⟨.circular, 4, 0, 0, 0⟩ := by
    simp [scaleMold]
    norm_num
  have ht : scaleMold 2 (⟨.circular, 2, 2, 0, 0⟩ : Mold) = ⟨.circular, 4, 4, 0, 0⟩ := by
    simp [scaleMold]
    norm_num
  have hv3 : getVolume ⟨.circular, 4, 0, 0, 0⟩ = 4 * Real.pi := by
    norm_num [getVolume]
    ring
  have hv4 : getVolume ⟨.circular, 4, 4, 0, 0⟩ = 16 * Real.pi := by
    norm_num [getVolume]
    ring
  have hf1 : calculatedMoldFactor ⟨.circular, 2, 0, 0, 0⟩ ⟨.circular, 2, 2, 0, 0⟩ = 2 := by
    simp only [calculatedMoldFactor, hv1, hv2]
    rw [if_neg (by push_neg; constructor <;> positivity)]
    field_simp
  have hf2 : calculatedMoldFactor ⟨.circular, 4, 0, 0, 0⟩ ⟨.circular, 4, 4, 0, 0⟩ = 4 := by
    simp only [calculatedMoldFactor, hv3, hv4]
    rw [if_neg (by push_neg; constructor <;> positivity)]
    rw [mul_div_mul_right _ _ Real.pi_ne_zero]
    norm_num
  refine ⟨by norm_num, ?_⟩
  rw [hs, ht, hf1, hf2]
  norm_num

/-- C6 (amended): uniform rescaling of every dimension of both molds by
`k > 0` leaves the mold factor unchanged, provided the two molds' heights
are both zero or both nonzero (a zero height means "unset" and is replaced
by `1`, so mixing an unset-height mold with a set-height one breaks the
invariance). -/
theorem claim6_amended (s t : Mold) (k : ℝ) (hk : 0 < k)
    (hh : s.height = 0 ↔ t.height = 0) :
    calculatedMoldFactor (scaleMold k s) (scaleMold k t) =
      calculatedMoldFactor s t := by
  have hk0 : k ≠ 0 := hk.ne'
  have hvs := getVolume_scaleMold s k hk0
  have hvt := getVolume_scaleMold t k hk0
  set c : ℝ := if s.height = 0 then k ^ 2 else k ^ 3 with hc
  have hct : (if t.height = 0 then k ^ 2 else k ^ 3) = c := by
    by_cases h0 : s.height = 0
    · rw [hc, if_pos (hh.mp h0), if_pos h0]
    · rw [hc, if_neg (fun ht0 => h0 (hh.mpr ht0)), if_neg h0]
  rw [hct] at hvt
  have hcpos : 0 < c := by
    rw [hc]; split <;> positivity
  simp only [calculatedMoldFactor, hvs, hvt]
  by_cases hcond : getVolume s ≤ 0 ∨ getVolume t ≤ 0
  · have hcond' : c * getVolume s ≤ 0 ∨ c * getVolume t ≤ 0 := by
      rcases hcond with h | h
      · exact Or.inl (mul_nonpos_of_nonneg_of_nonpos hcpos.le h)
      · exact Or.inr (mul_nonpos_of_nonneg_of_nonpos hcpos.le h)
    rw [if_pos hcond', if_pos hcond]
  · have hcond' : ¬(c * getVolume s ≤ 0 ∨ c * getVolume t ≤ 0) := by
      push_neg at hcond ⊢
      exact ⟨mul_pos hcpos hcond.1, mul_pos hcpos hcond.2⟩
    rw [if_neg hcond', if_neg hcond]
    exact mul_div_mul_left _ _ hcpos.ne'

/-- C6 (witness for the amended theorem): doubling all dimensions of a
circular source mold and a rectangular target mold, both with nonzero
height, leaves the factor unchanged. -/
theorem claim6_witness :
    (0 : ℝ) < 2 ∧
    ((Mold.mk .circular 3 5 0 0).height = 0 ↔
      (Mold.mk .rectangular 0 2 4 6).height = 0) ∧
    calculatedMoldFactor (scaleMold 2 ⟨.circular, 3, 5, 0, 0⟩)
        (scaleMold 2 ⟨.rectangular, 0, 2, 4, 6⟩) =
      calculatedMoldFactor ⟨.circular, 3, 5, 0, 0⟩ ⟨.rectangular, 0, 2, 4, 6⟩ := by
  have hiff : ((Mold.mk .circular 3 5 0 0).height = 0 ↔
      (Mold.mk .rectangular 0 2 4 6).height = 0) := by
    constructor <;> intro h <;> norm_num at h
  exact ⟨by norm_num, hiff, claim6_amended _ _ 2 (by norm_num) hiff⟩

end BakingBox
